import Mathlib

/-!
# Verification of the MyCoinShelf offline data layer (`OfflineDB`)

A shallow embedding of the IndexedDB wrapper `offline-db.js` (`class OfflineDB`).
The browser's IndexedDB object stores are modelled as Lean lists of records;
each `OfflineDB` method becomes a pure state transformer over a `DBState`
record.  IndexedDB semantics used by the code and reflected here:

* `put(item)` on a store with `keyPath` replaces the record holding the same
  primary key, or inserts a new record; a `unique` index aborts the
  transaction (modelled as `Except.error`) when another record with a
  *different* primary key carries the same index value.
* `add(item)` on an `autoIncrement` store inserts under a fresh key taken
  from the store's key generator (modelled as a `queueNextId` counter, which
  `clear()` does not reset).
* `getAll()` returns records in primary-key order, which for the sync queue
  (only ever extended through the generator) is insertion order.
* Non-determinism of `Date.now()` and `Math.random()` is modelled by passing
  the current time `t : Nat` and the random suffix `rnd : String` as
  explicit arguments.
-/

namespace OfflineDB

/-- A collection / wishlist record.  `id`, `offlineId` and `synced` are the
fields `offline-db.js` reads or writes; all remaining domain attributes are
opaque to the subsystem and collapsed into `payload`.  JS ids are either
server-assigned values or generated `offline_…` strings, so they are modelled
as `Option String` (`none` = property absent/undefined). -/
structure Item where
  id : Option String
  offlineId : Option String
  synced : Option Bool
  payload : String
  deriving DecidableEq, Repr

/-- A sync-queue record: the spread of the supplied operation plus the fields
`addToSyncQueue` adds (`timestamp`, `attempts`, `status`) and the
auto-increment key `id`. -/
structure QueueEntry where
  id : Nat
  type : String
  targetLocalId : String
  payload : String
  timestamp : Nat
  attempts : Nat
  status : String
  deriving DecidableEq, Repr

/-- The operation object callers pass to `addToSyncQueue`
(`type: Create|Update|Delete`, `targetLocalId`, `payload` in the spec's
data model). -/
structure Operation where
  type : String
  targetLocalId : String
  payload : String
  deriving DecidableEq, Repr

/-- An `apiCache` record as built by `cacheAPIResponse`. -/
structure CacheItem where
  key : String
  data : String
  timestamp : Nat
  deriving DecidableEq, Repr

/-- A `profile` record (`saveProfile` forces `id = "current"`). -/
structure ProfileRec where
  id : String
  payload : String
  deriving DecidableEq, Repr

/-- Errors a transaction can abort with (raised by the platform, e.g. a
`ConstraintError` from a `unique` index). -/
inductive DBErr where
  | constraint
  deriving DecidableEq, Repr

/-- The whole `CoinShelfDB` database: the five object stores created by
`onupgradeneeded`, plus the sync-queue store's key generator. -/
structure DBState where
  collection : List Item
  wishlist : List Item
  syncQueue : List QueueEntry
  queueNextId : Nat
  apiCache : List CacheItem
  profile : List ProfileRec
  deriving DecidableEq, Repr

/-- A freshly created database: all stores empty, key generator at 1. -/
def emptyDB : DBState :=
  { collection := [], wishlist := [], syncQueue := [], queueNextId := 1,
    apiCache := [], profile := [] }

/-! ## Collection / wishlist writes -/

/-- JS `s.startsWith(p)`, computed structurally on the character lists so
that concrete instances reduce in the kernel. -/
def strStartsWith (s p : String) : Bool := p.data.isPrefixOf s.data

/-- JS emptiness test on a string. -/
def strIsEmpty (s : String) : Bool := s.data.isEmpty

/-- JS truthiness of `item.id`: `undefined`/`null` and the empty string are
falsy. -/
def idFalsy : Option String → Bool
  | none => true
  | some s => strIsEmpty s

/-- The guard `!item.id || item.id.toString().startsWith('offline_')` of
`saveCollectionItem` / `saveWishlistItem`: the item has no server-assigned
identifier. -/
def isNewItem (it : Item) : Bool :=
  idFalsy it.id ||
    (match it.id with
     | none => false
     | some s => strStartsWith s "offline_")

/-- `` `offline_${Date.now()}_${Math.random().toString(36).substr(2, 9)}` ``. -/
def genOfflineId (t : Nat) (rnd : String) : String :=
  "offline_" ++ toString t ++ "_" ++ rnd

/-- JS `a || b` on a possibly-absent string (`undefined` and `""` are falsy). -/
def jsOr (o : Option String) (d : String) : String :=
  match o with
  | none => d
  | some s => if strIsEmpty s then d else s

/-- The mutation both save methods perform before `put`:
```
if (!item.id || item.id.toString().startsWith('offline_')) {
  item.offlineId = item.offlineId || `offline_${...}`;
  item.synced = false;
  item.id = item.offlineId;
}
``` -/
def mutateForSave (it : Item) (t : Nat) (rnd : String) : Item :=
  if isNewItem it then
    let oid := jsOr it.offlineId (genOfflineId t rnd)
    { it with offlineId := some oid, synced := some false, id := some oid }
  else it

/-- IndexedDB `store.put(item)` on a store with `keyPath: 'id'` and a
`unique` index on `offlineId`: aborts when a record under a *different*
primary key holds the same (present) `offlineId`; otherwise replaces the
record with the same key (if any) and stores `item`. -/
def putItem (store : List Item) (it : Item) : Except DBErr (List Item) :=
  if store.any (fun r => decide (r.id ≠ it.id) && r.offlineId.isSome &&
      decide (r.offlineId = it.offlineId)) then
    .error .constraint
  else
    .ok (store.filter (fun r => decide (r.id ≠ it.id)) ++ [it])

/-- `saveCollectionItem(item)`: its own transaction on `['collection']`
only. -/
def saveCollectionItem (db : DBState) (it : Item) (t : Nat) (rnd : String) :
    Except DBErr DBState :=
  match putItem db.collection (mutateForSave it t rnd) with
  | .ok c => .ok { db with collection := c }
  | .error e => .error e

/-- `saveWishlistItem(item)`: its own transaction on `['wishlist']` only. -/
def saveWishlistItem (db : DBState) (it : Item) (t : Nat) (rnd : String) :
    Except DBErr DBState :=
  match putItem db.wishlist (mutateForSave it t rnd) with
  | .ok w => .ok { db with wishlist := w }
  | .error e => .error e

/-- `getCollectionItems()` — `getAll()` on the collection store. -/
def getCollectionItems (db : DBState) : List Item := db.collection

/-- `getWishlistItems()`. -/
def getWishlistItems (db : DBState) : List Item := db.wishlist

/-- `deleteCollectionItem(id)`. -/
def deleteCollectionItem (db : DBState) (k : String) : DBState :=
  { db with collection := db.collection.filter (fun r => decide (r.id ≠ some k)) }

/-- `deleteWishlistItem(id)`. -/
def deleteWishlistItem (db : DBState) (k : String) : DBState :=
  { db with wishlist := db.wishlist.filter (fun r => decide (r.id ≠ some k)) }

/-! ## Sync-queue operations -/

/-- The queue record `addToSyncQueue` builds:
`{ ...operation, timestamp: Date.now(), attempts: 0, status: 'pending' }`,
stored by `add` under the generator key. -/
def mkQueueEntry (qid : Nat) (op : Operation) (t : Nat) : QueueEntry :=
  { id := qid, type := op.type, targetLocalId := op.targetLocalId,
    payload := op.payload, timestamp := t, attempts := 0, status := "pending" }

/-- `addToSyncQueue(operation)`: `store.add(queueItem)` on an
`autoIncrement` store — insert under the fresh generator key, bump the
generator.  (`D` suffix: the deterministic model with the clock passed in.) -/
def addToSyncQueueD (db : DBState) (op : Operation) (t : Nat) : DBState :=
  { db with syncQueue := db.syncQueue ++ [mkQueueEntry db.queueNextId op t],
            queueNextId := db.queueNextId + 1 }

/-- `getSyncQueue()` — `getAll()` returns records in primary-key order;
the queue is only ever extended with fresh increasing generator keys, so the
stored list is already in key order. -/
def getSyncQueue (db : DBState) : List QueueEntry := db.syncQueue

/-- `removeFromSyncQueue(id)`. -/
def removeFromSyncQueue (db : DBState) (qid : Nat) : DBState :=
  { db with syncQueue := db.syncQueue.filter (fun e => decide (e.id ≠ qid)) }

/-- `clearSyncQueue()` — `clear()` empties the store but does not reset the
key generator. -/
def clearSyncQueue (db : DBState) : DBState :=
  { db with syncQueue := [] }

/-! ## API cache, profile, clearAll -/

/-- `cacheAPIResponse(key, data)`: `put` keyed by `key` — replace the entry
with the same key (if any), store `{key, data, timestamp}`. -/
def cacheAPIResponse (db : DBState) (k d : String) (t : Nat) : DBState :=
  { db with apiCache :=
      db.apiCache.filter (fun c => decide (c.key ≠ k)) ++ [⟨k, d, t⟩] }

/-- `getCachedAPIResponse(key)` — `get(key)`. -/
def getCachedAPIResponse (db : DBState) (k : String) : Option CacheItem :=
  db.apiCache.find? (fun c => c.key == k)

/-- `saveProfile(profile)`: forces `id = 'current'` then `put`. -/
def saveProfile (db : DBState) (p : ProfileRec) : DBState :=
  { db with profile :=
      db.profile.filter (fun r => decide (r.id ≠ "current")) ++
        [{ p with id := "current" }] }

/-- `getProfile()` — `get('current')`. -/
def getProfile (db : DBState) : Option ProfileRec :=
  db.profile.find? (fun r => r.id == "current")

/-- `clearAll()`: one transaction over all five stores, `clear()` on each
(key generators are not reset by `clear`). -/
def clearAllD (db : DBState) : DBState :=
  { db with collection := [], wishlist := [], syncQueue := [],
            apiCache := [], profile := [] }

/-! ## Predicates used by the claims -/

/-- The queue read is ordered by timestamp (non-decreasing along the
returned sequence). -/
def TimestampSorted (q : List QueueEntry) : Prop :=
  q.Pairwise (fun a b => a.timestamp ≤ b.timestamp)

/-- The clock values handed to successive `addToSyncQueue` calls never step
backwards. -/
def tsMonotone : List (Operation × Nat) → Bool
  | [] => true
  | [_] => true
  | a :: b :: l => decide (a.2 ≤ b.2) && tsMonotone (b :: l)

/-- Run a sequence of `addToSyncQueue` calls, each with its operation and
its `Date.now()` reading. -/
def buildQueue (db : DBState) : List (Operation × Nat) → DBState
  | [] => db
  | (op, t) :: rest => buildQueue (addToSyncQueueD db op t) rest

/-- Two records are compatible with the `unique` index on `offlineId`:
the first has no `offlineId`, or the two differ. -/
def OfflineIdOk (a b : Item) : Prop :=
  a.offlineId = none ∨ a.offlineId ≠ b.offlineId

/-- The store satisfies the `unique` index on `offlineId`: no two records
share a present `offlineId`. -/
def NoDupOfflineIds (store : List Item) : Prop := store.Pairwise OfflineIdOk

/-- No two records share a primary key (IndexedDB guarantees this for every
store by construction of `put`/`add`). -/
def NoDupKeys (store : List Item) : Prop :=
  store.Pairwise (fun a b => a.id ≠ b.id)

instance (a b : Item) : Decidable (OfflineIdOk a b) := by
  unfold OfflineIdOk
  infer_instance

/-- Number of records carrying `offlineId = o`. -/
def countOffline (store : List Item) (o : String) : Nat :=
  (store.filter (fun r => r.offlineId == some o)).length

/-- Number of records stored under primary key `o`. -/
def countKey (store : List Item) (o : String) : Nat :=
  (store.filter (fun r => r.id == some o)).length

/-- Both record stores satisfy the unique-`offlineId` index and primary-key
uniqueness: exactly one record per local identifier. -/
def storesUnique (db : DBState) : Prop :=
  NoDupOfflineIds db.collection ∧ NoDupKeys db.collection ∧
    NoDupOfflineIds db.wishlist ∧ NoDupKeys db.wishlist

/-- The atomicity invariant claimed for the data layer: every unsynced
record has a sync-queue entry targeting its `offlineId`, and every queue
entry has a record it targets. -/
def unsyncedMatchedB (db : DBState) : Bool :=
  (db.collection ++ db.wishlist).all (fun it =>
      !(it.synced == some false) ||
        db.syncQueue.any (fun e => some e.targetLocalId == it.offlineId)) &&
  db.syncQueue.all (fun e =>
      (db.collection ++ db.wishlist).any
        (fun it => some e.targetLocalId == it.offlineId))

/-- One `OfflineDB` method call, as observable on the database state.  Each
constructor is one method of `offline-db.js`; `t` and `rnd` model the
`Date.now()` / `Math.random()` readings the call happens to see. -/
inductive Step : DBState → DBState → Prop
  | saveColl (db : DBState) (it : Item) (t : Nat) (rnd : String)
      (db' : DBState) : saveCollectionItem db it t rnd = .ok db' →
      Step db db'
  | saveWish (db : DBState) (it : Item) (t : Nat) (rnd : String)
      (db' : DBState) : saveWishlistItem db it t rnd = .ok db' →
      Step db db'
  | delColl (db : DBState) (k : String) : Step db (deleteCollectionItem db k)
  | delWish (db : DBState) (k : String) : Step db (deleteWishlistItem db k)
  | addQueue (db : DBState) (op : Operation) (t : Nat) :
      Step db (addToSyncQueueD db op t)
  | removeQueue (db : DBState) (qid : Nat) :
      Step db (removeFromSyncQueue db qid)
  | clearQueue (db : DBState) : Step db (clearSyncQueue db)
  | cacheResp (db : DBState) (k d : String) (t : Nat) :
      Step db (cacheAPIResponse db k d t)
  | saveProf (db : DBState) (p : ProfileRec) : Step db (saveProfile db p)
  | clearEverything (db : DBState) : Step db (clearAllD db)

/-- States reachable from a fresh database through `OfflineDB` calls. -/
def Reachable (db : DBState) : Prop :=
  Relation.ReflTransGen Step emptyDB db

/-- A fresh record as the page hands it to `saveCollectionItem` while
offline: no id yet, nothing synced. -/
def itFresh : Item :=
  { id := none, offlineId := none, synced := none, payload := "coinA" }

/-- The database immediately after `saveCollectionItem(itFresh)` on a fresh
database and before any `addToSyncQueue` call: one unsynced record, empty
queue. -/
def dbAfterSave : DBState :=
  { collection := [{ id := some "offline_5_r", offlineId := some "offline_5_r",
                     synced := some false, payload := "coinA" }],
    wishlist := [], syncQueue := [], queueNextId := 1, apiCache := [],
    profile := [] }

/-- A record already in the collection store under its offline id. -/
def rStored : Item :=
  { id := some "offline_1_r", offlineId := some "offline_1_r",
    synced := some false, payload := "old" }

/-- A database whose collection store holds exactly `rStored`. -/
def dbStored : DBState :=
  { collection := [rStored], wishlist := [], syncQueue := [],
    queueNextId := 1, apiCache := [], profile := [] }

/-- A database whose wishlist store holds exactly `rStored`. -/
def dbStoredW : DBState :=
  { collection := [], wishlist := [rStored], syncQueue := [],
    queueNextId := 1, apiCache := [], profile := [] }

/-- An edited copy of `rStored` being saved again under the same offline
id. -/
def itEdited : Item :=
  { id := some "offline_1_r", offlineId := some "offline_1_r",
    synced := none, payload := "new" }

/-- A queue entry that has reached the attempt cap. -/
def qPoisoned : QueueEntry :=
  { id := 1, type := "Create", targetLocalId := "L1", payload := "A",
    timestamp := 1, attempts := 6, status := "pending" }

/-- An independent healthy queue entry behind the poisoned one. -/
def qHealthy : QueueEntry :=
  { id := 2, type := "Update", targetLocalId := "L2", payload := "B",
    timestamp := 2, attempts := 0, status := "pending" }

/-- A database whose queue holds the poisoned entry followed by a healthy
one. -/
def dbPoisoned : DBState :=
  { collection := [], wishlist := [], syncQueue := [qPoisoned, qHealthy],
    queueNextId := 3, apiCache := [], profile := [] }

/-! ## Schema upgrade (`onupgradeneeded`) -/

/-- An IndexedDB object store's schema: name, key path, auto-increment flag
and its indexes (name, unique flag). -/
structure StoreSchema where
  name : String
  keyPath : String
  autoIncrement : Bool
  indexes : List (String × Bool)
  deriving DecidableEq, Repr

/-- `db.objectStoreNames.contains(n)`. -/
def containsStore (s : List StoreSchema) (n : String) : Bool :=
  s.any (fun st => st.name == n)

/-- One guarded `createObjectStore` block of `onupgradeneeded`. -/
def addStoreIfAbsent (s : List StoreSchema) (st : StoreSchema) :
    List StoreSchema :=
  if containsStore s st.name then s else s ++ [st]

/-- The `collection` store: `keyPath 'id'`, `autoIncrement`, indexes
`offlineId` (unique) and `synced`. -/
def collectionSchema : StoreSchema :=
  ⟨"collection", "id", true, [("offlineId", true), ("synced", false)]⟩

/-- The `wishlist` store (same shape as `collection`). -/
def wishlistSchema : StoreSchema :=
  ⟨"wishlist", "id", true, [("offlineId", true), ("synced", false)]⟩

/-- The `syncQueue` store: indexes `timestamp` and `type`. -/
def syncQueueSchema : StoreSchema :=
  ⟨"syncQueue", "id", true, [("timestamp", false), ("type", false)]⟩

/-- The `apiCache` store: `keyPath 'key'`, index `timestamp`. -/
def apiCacheSchema : StoreSchema :=
  ⟨"apiCache", "key", false, [("timestamp", false)]⟩

/-- The `profile` store: `keyPath 'id'`, no indexes. -/
def profileSchema : StoreSchema := ⟨"profile", "id", false, []⟩

/-- The whole `onupgradeneeded` handler: five guarded creations, in source
order. -/
def onUpgradeNeeded (s : List StoreSchema) : List StoreSchema :=
  addStoreIfAbsent
    (addStoreIfAbsent
      (addStoreIfAbsent
        (addStoreIfAbsent
          (addStoreIfAbsent s collectionSchema)
          wishlistSchema)
        syncQueueSchema)
      apiCacheSchema)
    profileSchema

/-- The database already contains all five object stores. -/
def hasAllStores (s : List StoreSchema) : Bool :=
  containsStore s "collection" && containsStore s "wishlist" &&
    containsStore s "syncQueue" && containsStore s "apiCache" &&
    containsStore s "profile"

/-- A concrete schema holding exactly the five stores `onupgradeneeded`
creates. -/
def freshSchema : List StoreSchema :=
  [collectionSchema, wishlistSchema, syncQueueSchema, apiCacheSchema,
   profileSchema]

/-! ## Error propagation (`init`) -/

/-- The spec's error taxonomy (§7). -/
inductive ErrorKind where
  | storageUnavailable
  | transientNetworkFailure
  | permanentRejection
  | orderingDeferral
  deriving DecidableEq, Repr

/-- A value the page can observe from a rejected `OfflineDB` promise:
either one of the spec's error kinds, or a raw platform error (the
`DOMException` held by `request.error`, modelled opaquely by a code). -/
inductive PageError where
  | kind : ErrorKind → PageError
  | raw : Nat → PageError
  deriving DecidableEq, Repr

/-- Whether a page-visible error is one of the spec's converted kinds. -/
def PageError.isKind : PageError → Bool
  | .kind _ => true
  | .raw _ => false

/-- Outcome of `indexedDB.open`: success, or the platform error exposed as
`request.error`. -/
inductive OpenResult where
  | success
  | failure (e : Nat)
  deriving DecidableEq, Repr

/-- `init()`: `onsuccess` resolves with the database handle; `onerror` logs
and then does `reject(request.error)` — the raw platform error itself
becomes the promise's rejection value. -/
def init : OpenResult → Except PageError Unit
  | .success => .ok ()
  | .failure e => .error (.raw e)

/-! ## Fail path (spec-modelled) -/

/-- Modelled from the spec: the maximum attempt cap of §4.2 ("bounded
exponential backoff, e.g. cap at 6 attempts").  The reconciler that owns
this constant is not among the sources; only the queue store it drives is. -/
def MAX_ATTEMPTS : Nat := 6

/-- Modelled from the spec: `fail(queueId, error)` "reschedules with
incremented attempts", and "an entry exceeding a maximum attempt count …
transitions to `Failed`".  The reconciler implementing this path is not
among the sources. -/
def failEntry (e : QueueEntry) : QueueEntry :=
  if MAX_ATTEMPTS < e.attempts + 1 then
    { e with attempts := e.attempts + 1, status := "failed" }
  else
    { e with attempts := e.attempts + 1 }

/-- Modelled from the spec: applying the fail path to the queue entry with
the given id, in place, leaving every other entry untouched. -/
def failQueueEntry (db : DBState) (qid : Nat) : DBState :=
  { db with syncQueue :=
      db.syncQueue.map (fun e => if e.id = qid then failEntry e else e) }

/-- Modelled from the spec: one drain pass considers, in order, exactly the
entries not frozen as `Failed`; a `Failed` entry is surfaced to the user and
skipped, so it never blocks later entries. -/
def drainEligible (q : List QueueEntry) : List QueueEntry :=
  q.filter (fun e => decide (e.status ≠ "failed"))

/-! ## Theorems -/

/-- C10: `clearAll` empties all five object stores: afterwards
`getCollectionItems`, `getWishlistItems` and `getSyncQueue` return the
empty sequence, and `getProfile` / `getCachedAPIResponse` find nothing for
any key. -/
theorem c10_clear_all_empties (db : DBState) (k : String) :
    getCollectionItems (clearAllD db) = [] ∧
    getWishlistItems (clearAllD db) = [] ∧
    getSyncQueue (clearAllD db) = [] ∧
    getCachedAPIResponse (clearAllD db) k = none ∧
    getProfile (clearAllD db) = none :=
  ⟨rfl, rfl, rfl, rfl, rfl⟩

/-- C9 (counterexample): when `indexedDB.open` fails, `init` rejects with
the raw platform error itself — at the concrete platform error `0` the
page-visible value is not one of the specified error kinds, refuting the
conversion claim. -/
theorem c9_raw_error_counterexample :
    init (.failure 0) = .error (.raw 0) ∧
      (PageError.raw 0).isKind = false :=
  ⟨rfl, rfl⟩

/-- C9 (amended): `init` catches the open failure only to log it and then
propagates the raw platform error unchanged as the promise rejection value;
no conversion into the spec's error taxonomy takes place. -/
theorem c9_raw_error_passthrough (e : Nat) :
    init (.failure e) = .error (.raw e) ∧ (PageError.raw e).isKind = false :=
  ⟨rfl, rfl⟩

/-- After a guarded creation the store is present. -/
theorem containsStore_addStoreIfAbsent_self (s : List StoreSchema)
    (st : StoreSchema) :
    containsStore (addStoreIfAbsent s st) st.name = true := by
  unfold addStoreIfAbsent
  by_cases h : containsStore s st.name = true
  · simp [h]
  · simp only [h, if_false, Bool.false_eq_true]
    simp [containsStore, List.any_append]

/-- A guarded creation never removes a store. -/
theorem containsStore_addStoreIfAbsent_mono (s : List StoreSchema)
    (st : StoreSchema) (n : String) (h : containsStore s n = true) :
    containsStore (addStoreIfAbsent s st) n = true := by
  unfold addStoreIfAbsent
  by_cases hc : containsStore s st.name = true
  · simpa [hc]
  · simp only [hc, if_false, Bool.false_eq_true]
    simp only [containsStore, List.any_append, Bool.or_eq_true]
    exact Or.inl h

/-- A guarded creation of an already-present store changes nothing. -/
theorem addStoreIfAbsent_of_contains (s : List StoreSchema)
    (st : StoreSchema) (h : containsStore s st.name = true) :
    addStoreIfAbsent s st = s := by
  unfold addStoreIfAbsent
  simp [h]

/-- After one run of `onupgradeneeded`, all five stores exist. -/
theorem hasAllStores_onUpgradeNeeded (s : List StoreSchema) :
    hasAllStores (onUpgradeNeeded s) = true := by
  unfold hasAllStores onUpgradeNeeded
  simp only [Bool.and_eq_true]
  refine ⟨⟨⟨⟨?_, ?_⟩, ?_⟩, ?_⟩, ?_⟩
  · exact containsStore_addStoreIfAbsent_mono _ _ _
      (containsStore_addStoreIfAbsent_mono _ _ _
        (containsStore_addStoreIfAbsent_mono _ _ _
          (containsStore_addStoreIfAbsent_mono _ _ _
            (containsStore_addStoreIfAbsent_self s collectionSchema))))
  · exact containsStore_addStoreIfAbsent_mono _ _ _
      (containsStore_addStoreIfAbsent_mono _ _ _
        (containsStore_addStoreIfAbsent_mono _ _ _
          (containsStore_addStoreIfAbsent_self _ wishlistSchema)))
  · exact containsStore_addStoreIfAbsent_mono _ _ _
      (containsStore_addStoreIfAbsent_mono _ _ _
        (containsStore_addStoreIfAbsent_self _ syncQueueSchema))
  · exact containsStore_addStoreIfAbsent_mono _ _ _
      (containsStore_addStoreIfAbsent_self _ apiCacheSchema)
  · exact containsStore_addStoreIfAbsent_self _ profileSchema

/-- C6: the upgrade step is idempotent — it leaves a schema that already
contains the five object stores unchanged, so upgrading twice yields the
same schema as upgrading once. -/
theorem c6_upgrade_idempotent :
    (∀ s, hasAllStores s = true → onUpgradeNeeded s = s) ∧
    (∀ s, onUpgradeNeeded (onUpgradeNeeded s) = onUpgradeNeeded s) := by
  have key : ∀ s, hasAllStores s = true → onUpgradeNeeded s = s := by
    intro s h
    unfold hasAllStores at h
    simp only [Bool.and_eq_true] at h
    obtain ⟨⟨⟨⟨h1, h2⟩, h3⟩, h4⟩, h5⟩ := h
    unfold onUpgradeNeeded
    rw [addStoreIfAbsent_of_contains s collectionSchema h1,
        addStoreIfAbsent_of_contains s wishlistSchema h2,
        addStoreIfAbsent_of_contains s syncQueueSchema h3,
        addStoreIfAbsent_of_contains s apiCacheSchema h4,
        addStoreIfAbsent_of_contains s profileSchema h5]
  exact ⟨key, fun s => key _ (hasAllStores_onUpgradeNeeded s)⟩

/-- C6 witness: the already-upgraded five-store schema is left unchanged by
another upgrade run. -/
theorem c6_upgrade_idempotent_witness :
    hasAllStores freshSchema = true ∧
      onUpgradeNeeded freshSchema = freshSchema :=
  ⟨by decide, c6_upgrade_idempotent.1 freshSchema (by decide)⟩

/-- C4: `addToSyncQueue` stores the supplied operation's fields unchanged
plus `attempts = 0`, `status = "pending"` and the timestamp, appended under
the fresh key-generator id — strictly larger than every existing id, so no
existing entry is overwritten — and the generator strictly increases. -/
theorem c4_enqueue_appends (db : DBState) (op : Operation) (t : Nat)
    (hids : ∀ e ∈ db.syncQueue, e.id < db.queueNextId) :
    (addToSyncQueueD db op t).syncQueue =
      db.syncQueue ++
        [{ id := db.queueNextId, type := op.type,
           targetLocalId := op.targetLocalId, payload := op.payload,
           timestamp := t, attempts := 0, status := "pending" }] ∧
    (∀ e ∈ db.syncQueue, e.id ≠ db.queueNextId) ∧
    db.queueNextId < (addToSyncQueueD db op t).queueNextId ∧
    (∀ e ∈ (addToSyncQueueD db op t).syncQueue,
        e.id < (addToSyncQueueD db op t).queueNextId) := by
  refine ⟨rfl, ?_, Nat.lt_succ_self _, ?_⟩
  · intro e he
    exact Nat.ne_of_lt (hids e he)
  · intro e he
    simp only [addToSyncQueueD, List.mem_append, List.mem_singleton] at he
    rcases he with he | he
    · exact Nat.lt_succ_of_lt (hids e he)
    · subst he
      exact Nat.lt_succ_self _

/-- C4 witness: enqueueing a `Create` on a fresh database stores exactly
the operation's fields plus the initialized bookkeeping fields under id 1. -/
theorem c4_enqueue_appends_witness :
    (addToSyncQueueD emptyDB ⟨"Create", "L1", "A"⟩ 7).syncQueue =
      [{ id := 1, type := "Create", targetLocalId := "L1", payload := "A",
         timestamp := 7, attempts := 0, status := "pending" }] := by
  have h := c4_enqueue_appends emptyDB ⟨"Create", "L1", "A"⟩ 7 (by decide)
  simpa using h.1

/-- Filtering away the records under key `k` does not change which record a
lookup for a different key finds. -/
theorem find?_filter_key_ne (k req : String) (h : req ≠ k) :
    ∀ l : List CacheItem,
      ((l.filter fun c => decide (c.key ≠ k)).find? fun c => c.key == req) =
        (l.find? fun c => c.key == req) := by
  intro l
  induction l with
  | nil => rfl
  | cons c l ih =>
    by_cases hck : c.key = k
    · have h1 : (decide (c.key ≠ k)) = false := by simp [hck]
      have hcr : (c.key == req) = false := by
        have hne : c.key ≠ req := by
          rw [hck]
          exact Ne.symm h
        simpa using hne
      simp only [List.filter_cons, h1, Bool.false_eq_true, if_false,
                 List.find?_cons, hcr, ih]
    · have h1 : (decide (c.key ≠ k)) = true := by simpa using hck
      simp only [List.filter_cons, h1, if_true, List.find?_cons]
      cases hcr : (c.key == req) with
      | true => rfl
      | false => exact ih

/-- C8: cache round-trip — after `cacheAPIResponse(k, d)` at time `t`,
reading key `k` returns the freshly cached entry (the `put` overwrote any
earlier entry under `k`), and lookups under any other key are unchanged. -/
theorem c8_cache_roundtrip (db : DBState) (k d : String) (t : Nat)
    (req : String) (hne : req ≠ k) :
    getCachedAPIResponse (cacheAPIResponse db k d t) k = some ⟨k, d, t⟩ ∧
    getCachedAPIResponse (cacheAPIResponse db k d t) req =
      getCachedAPIResponse db req := by
  constructor
  · unfold getCachedAPIResponse cacheAPIResponse
    rw [List.find?_append]
    have hnone : ((db.apiCache.filter fun c => decide (c.key ≠ k)).find?
        fun c => c.key == k) = none := by
      rw [List.find?_eq_none]
      intro x hx
      rcases List.mem_filter.mp hx with ⟨-, hxk⟩
      simp only [decide_eq_true_eq] at hxk
      simpa using hxk
    rw [hnone]
    simp [List.find?]
  · unfold getCachedAPIResponse cacheAPIResponse
    rw [List.find?_append, find?_filter_key_ne k req hne]
    have hk : ((⟨k, d, t⟩ : CacheItem).key == req) = false := by
      simpa using fun hh => hne hh.symm
    cases hfind : (db.apiCache.find? fun c => c.key == req) with
    | some v => simp
    | none => simp [List.find?, hk]

/-- C8 witness: round-trip at a concrete key, with a distinct second key
unchanged. -/
theorem c8_cache_roundtrip_witness :
    getCachedAPIResponse (cacheAPIResponse emptyDB "GET /a" "d1" 3) "GET /a" =
      some ⟨"GET /a", "d1", 3⟩ ∧
    getCachedAPIResponse (cacheAPIResponse emptyDB "GET /a" "d1" 3) "GET /b" =
      getCachedAPIResponse emptyDB "GET /b" :=
  c8_cache_roundtrip emptyDB "GET /a" "d1" 3 "GET /b" (by decide)

/-- A successful `put` yields the old store minus any record under the same
key, with the new record at the end. -/
theorem putItem_ok_shape (store : List Item) (it : Item) (l : List Item)
    (h : putItem store it = .ok l) :
    l = store.filter (fun r => decide (r.id ≠ it.id)) ++ [it] := by
  unfold putItem at h
  by_cases hc : (store.any fun r => decide (r.id ≠ it.id) &&
      r.offlineId.isSome && decide (r.offlineId = it.offlineId)) = true
  · rw [if_pos hc] at h
    cases h
  · rw [if_neg hc] at h
    cases h
    rfl

/-- C2: a record lacking a server-assigned identifier is stored (by both
`saveCollectionItem` and `saveWishlistItem`) with `synced = false` and with
its `offlineId` — freshly generated from the clock and the random suffix
when none was supplied — as its `id`. -/
theorem c2_save_marks_unsynced (db : DBState) (it : Item) (t : Nat)
    (rnd : String) (hnew : isNewItem it = true) :
    (mutateForSave it t rnd).synced = some false ∧
    (mutateForSave it t rnd).offlineId =
      some (jsOr it.offlineId (genOfflineId t rnd)) ∧
    (mutateForSave it t rnd).id = (mutateForSave it t rnd).offlineId ∧
    (it.offlineId = none →
      (mutateForSave it t rnd).offlineId = some (genOfflineId t rnd)) ∧
    (∀ db', saveCollectionItem db it t rnd = .ok db' →
      mutateForSave it t rnd ∈ db'.collection) ∧
    (∀ db', saveWishlistItem db it t rnd = .ok db' →
      mutateForSave it t rnd ∈ db'.wishlist) := by
  have hm : mutateForSave it t rnd =
      { it with offlineId := some (jsOr it.offlineId (genOfflineId t rnd)),
                synced := some false,
                id := some (jsOr it.offlineId (genOfflineId t rnd)) } := by
    unfold mutateForSave
    rw [if_pos hnew]
  refine ⟨?_, ?_, ?_, ?_, ?_, ?_⟩
  · rw [hm]
  · rw [hm]
  · rw [hm]
  · intro h0
    rw [hm]
    simp [jsOr, h0]
  · intro db' hdb
    unfold saveCollectionItem at hdb
    cases hput : putItem db.collection (mutateForSave it t rnd) with
    | ok c =>
      rw [hput] at hdb
      cases hdb
      show mutateForSave it t rnd ∈ c
      rw [putItem_ok_shape _ _ _ hput]
      exact List.mem_append_right _ (List.mem_singleton_self _)
    | error e =>
      rw [hput] at hdb
      cases hdb
  · intro db' hdb
    unfold saveWishlistItem at hdb
    cases hput : putItem db.wishlist (mutateForSave it t rnd) with
    | ok w =>
      rw [hput] at hdb
      cases hdb
      show mutateForSave it t rnd ∈ w
      rw [putItem_ok_shape _ _ _ hput]
      exact List.mem_append_right _ (List.mem_singleton_self _)
    | error e =>
      rw [hput] at hdb
      cases hdb

/-- C2 witness: saving a fresh record at time 5 with random suffix "r"
stores it unsynced under the generated offline id. -/
theorem c2_save_marks_unsynced_witness :
    (mutateForSave itFresh 5 "r").synced = some false ∧
      mutateForSave itFresh 5 "r" ∈ dbAfterSave.collection := by
  have h := c2_save_marks_unsynced emptyDB itFresh 5 "r" (by decide)
  exact ⟨h.1, h.2.2.2.2.1 dbAfterSave (by rfl)⟩

/-- C1 (counterexample): the record write and the queue append are separate
single-store transactions, so immediately after `saveCollectionItem` (and
before any `addToSyncQueue`) the database — reachable from a fresh database
in one step — holds an unsynced record with no matching queue entry. -/
theorem c1_atomicity_counterexample :
    Reachable dbAfterSave ∧ unsyncedMatchedB dbAfterSave = false := by
  constructor
  · exact Relation.ReflTransGen.single
      (Step.saveColl emptyDB itFresh 5 "r" dbAfterSave (by rfl))
  · decide

/-- C1 (amended): each mutation runs in its own single-store transaction —
`saveCollectionItem` / `saveWishlistItem` write only their record store and
`addToSyncQueueD` writes only the sync-queue store — so the record write
and the queue append are not atomic, and between the two calls an unsynced
record exists without its queue entry. -/
theorem c1_separate_transactions (db : DBState) (it : Item) (t : Nat)
    (rnd : String) (op : Operation) :
    (∀ db', saveCollectionItem db it t rnd = .ok db' →
        db'.syncQueue = db.syncQueue ∧ db'.wishlist = db.wishlist ∧
        db'.apiCache = db.apiCache ∧ db'.profile = db.profile) ∧
    (∀ db', saveWishlistItem db it t rnd = .ok db' →
        db'.syncQueue = db.syncQueue ∧ db'.collection = db.collection) ∧
    (addToSyncQueueD db op t).collection = db.collection ∧
    (addToSyncQueueD db op t).wishlist = db.wishlist := by
  refine ⟨?_, ?_, rfl, rfl⟩
  · intro db' h
    unfold saveCollectionItem at h
    cases hput : putItem db.collection (mutateForSave it t rnd) with
    | ok c =>
      rw [hput] at h
      cases h
      exact ⟨rfl, rfl, rfl, rfl⟩
    | error e =>
      rw [hput] at h
      cases h
  · intro db' h
    unfold saveWishlistItem at h
    cases hput : putItem db.wishlist (mutateForSave it t rnd) with
    | ok w =>
      rw [hput] at h
      cases h
      exact ⟨rfl, rfl⟩
    | error e =>
      rw [hput] at h
      cases h

/-- C1 amended-claim witness: a concrete save leaves the sync queue and the
wishlist store untouched. -/
theorem c1_separate_transactions_witness :
    dbAfterSave.syncQueue = emptyDB.syncQueue ∧
      dbAfterSave.wishlist = emptyDB.wishlist := by
  have h := (c1_separate_transactions emptyDB itFresh 5 "r"
      ⟨"Create", "L1", "A"⟩).1 dbAfterSave (by rfl)
  exact ⟨h.1, h.2.1⟩

/-- C3 (counterexample): two enqueues whose `Date.now()` readings step
backwards (5 then 3) reach a queue whose `getSyncQueue` read is in
insertion order but not in timestamp order, refuting the ordering claim. -/
theorem c3_timestamp_order_counterexample :
    Reachable (addToSyncQueueD
        (addToSyncQueueD emptyDB ⟨"Create", "L1", "A"⟩ 5)
        ⟨"Update", "L1", "B"⟩ 3) ∧
    ¬ TimestampSorted (getSyncQueue (addToSyncQueueD
        (addToSyncQueueD emptyDB ⟨"Create", "L1", "A"⟩ 5)
        ⟨"Update", "L1", "B"⟩ 3)) := by
  constructor
  · exact Relation.ReflTransGen.tail
      (Relation.ReflTransGen.single
        (Step.addQueue emptyDB ⟨"Create", "L1", "A"⟩ 5))
      (Step.addQueue _ ⟨"Update", "L1", "B"⟩ 3)
  · unfold TimestampSorted
    decide

/-- A monotone enqueue-timestamp list stays monotone after dropping its
head. -/
theorem tsMonotone_tail (a : Operation × Nat) (l : List (Operation × Nat))
    (h : tsMonotone (a :: l) = true) : tsMonotone l = true := by
  cases l with
  | nil => rfl
  | cons b l =>
    have h' : a.2 ≤ b.2 ∧ tsMonotone (b :: l) = true := by
      simpa [tsMonotone] using h
    exact h'.2

/-- In a monotone enqueue-timestamp list, the head's timestamp bounds all
later ones. -/
theorem tsMonotone_head_le (a : Operation × Nat) (l : List (Operation × Nat))
    (h : tsMonotone (a :: l) = true) : ∀ q ∈ l, a.2 ≤ q.2 := by
  induction l generalizing a with
  | nil =>
    intro q hq
    exact absurd hq (List.not_mem_nil q)
  | cons b l ih =>
    intro q hq
    have h' : a.2 ≤ b.2 ∧ tsMonotone (b :: l) = true := by
      simpa [tsMonotone] using h
    rcases List.mem_cons.mp hq with rfl | hq'
    · exact h'.1
    · exact le_trans h'.1 (ih b h'.2 q hq')

/-- Enqueues with non-decreasing timestamps keep the queue timestamp
sorted, provided the existing queue is sorted and bounded by the incoming
timestamps. -/
theorem buildQueue_sorted_aux (ops : List (Operation × Nat)) :
    ∀ db : DBState, tsMonotone ops = true →
      TimestampSorted db.syncQueue →
      (∀ e ∈ db.syncQueue, ∀ q ∈ ops, e.timestamp ≤ q.2) →
      TimestampSorted (buildQueue db ops).syncQueue := by
  induction ops with
  | nil =>
    intro db _ hs _
    exact hs
  | cons p rest ih =>
    intro db hmono hs hb
    obtain ⟨op, t⟩ := p
    show TimestampSorted (buildQueue (addToSyncQueueD db op t) rest).syncQueue
    apply ih
    · exact tsMonotone_tail _ _ hmono
    · show TimestampSorted
        (db.syncQueue ++ [mkQueueEntry db.queueNextId op t])
      unfold TimestampSorted at hs ⊢
      rw [List.pairwise_append]
      refine ⟨hs, List.pairwise_singleton _ _, ?_⟩
      intro a ha b hbmem
      rcases List.mem_singleton.mp hbmem with rfl
      exact hb a ha (op, t) (List.mem_cons_self _ _)
    · intro e he q hq
      rcases List.mem_append.mp he with he' | he'
      · exact hb e he' q (List.mem_cons_of_mem _ hq)
      · rcases List.mem_singleton.mp he' with rfl
        show t ≤ q.2
        exact tsMonotone_head_le (op, t) rest hmono q hq

/-- C3 (amended): `getSyncQueue` returns entries in insertion (key) order:
every enqueue appends at the end, so existing entries — in particular those
for the same `targetLocalId` — are never reordered relative to each other;
whenever the timestamps seen by successive enqueues never decrease, that
order is also timestamp order. -/
theorem c3_insertion_order :
    (∀ (db : DBState) (op : Operation) (t : Nat),
        getSyncQueue (addToSyncQueueD db op t) =
          getSyncQueue db ++ [mkQueueEntry db.queueNextId op t]) ∧
    (∀ ops : List (Operation × Nat), tsMonotone ops = true →
        TimestampSorted (getSyncQueue (buildQueue emptyDB ops))) := by
  constructor
  · intro db op t
    rfl
  · intro ops hmono
    exact buildQueue_sorted_aux ops emptyDB hmono List.Pairwise.nil
      (fun e he => absurd he (List.not_mem_nil e))

/-- C3 amended-claim witness: two enqueues with non-decreasing timestamps
yield a timestamp-sorted read. -/
theorem c3_insertion_order_witness :
    TimestampSorted (getSyncQueue (buildQueue emptyDB
      [(⟨"Create", "L1", "A"⟩, 1), (⟨"Update", "L1", "B"⟩, 2)])) :=
  c3_insertion_order.2 _ (by decide)

/-- A successful `put` implies the unique-index check passed. -/
theorem putItem_ok_cond (store : List Item) (it : Item) (l : List Item)
    (h : putItem store it = .ok l) :
    (store.any fun r => decide (r.id ≠ it.id) && r.offlineId.isSome &&
      decide (r.offlineId = it.offlineId)) = false := by
  unfold putItem at h
  by_cases hc : (store.any fun r => decide (r.id ≠ it.id) &&
      r.offlineId.isSome && decide (r.offlineId = it.offlineId)) = true
  · rw [if_pos hc] at h
    cases h
  · exact Bool.eq_false_iff.mpr hc

/-- In a store satisfying the unique `offlineId` index, two records
carrying the same present `offlineId` are the same record. -/
theorem eq_of_offlineId_eq (a b : Item) (o : String)
    (hao : a.offlineId = some o) (hbo : b.offlineId = some o) :
    ∀ l : List Item, NoDupOfflineIds l → a ∈ l → b ∈ l → a = b := by
  intro l
  induction l with
  | nil =>
    intro _ ha _
    cases ha
  | cons x xs ih =>
    intro hnd ha hb
    have hx : ∀ y ∈ xs, OfflineIdOk x y := (List.pairwise_cons.mp hnd).1
    have hxs : NoDupOfflineIds xs := (List.pairwise_cons.mp hnd).2
    rcases List.mem_cons.mp ha with rfl | ha'
    · rcases List.mem_cons.mp hb with rfl | hb'
      · rfl
      · exfalso
        rcases hx b hb' with h0 | h0
        · rw [h0] at hao
          cases hao
        · exact h0 (hao.trans hbo.symm)
    · rcases List.mem_cons.mp hb with rfl | hb'
      · exfalso
        rcases hx a ha' with h0 | h0
        · rw [h0] at hbo
          cases hbo
        · exact h0 (hbo.trans hao.symm)
      · exact ih hxs ha' hb'

/-- A successful `put` into any record store preserves both uniqueness
invariants: the unique `offlineId` index and primary-key uniqueness. -/
theorem putItem_preserves_nodup (store : List Item) (m : Item)
    (c : List Item) (hput : putItem store m = .ok c)
    (hoid : NoDupOfflineIds store) (hkeys : NoDupKeys store) :
    NoDupOfflineIds c ∧ NoDupKeys c := by
  have hshape := putItem_ok_shape _ _ _ hput
  have hcond := putItem_ok_cond _ _ _ hput
  rw [List.any_eq_false] at hcond
  subst hshape
  constructor
  · unfold NoDupOfflineIds at hoid ⊢
    rw [List.pairwise_append]
    refine ⟨List.Pairwise.sublist (List.filter_sublist _) hoid,
      List.pairwise_singleton _ _, ?_⟩
    intro a ha b hb
    rw [List.mem_singleton] at hb
    subst hb
    rcases List.mem_filter.mp ha with ⟨hal, haid⟩
    cases haoff : a.offlineId with
    | none => exact Or.inl haoff
    | some v =>
      refine Or.inr ?_
      intro heq
      apply hcond a hal
      rw [Bool.and_eq_true, Bool.and_eq_true]
      refine ⟨⟨haid, ?_⟩, ?_⟩
      · rw [haoff]
        rfl
      · rw [heq]
        simp
  · unfold NoDupKeys at hkeys ⊢
    rw [List.pairwise_append]
    refine ⟨List.Pairwise.sublist (List.filter_sublist _) hkeys,
      List.pairwise_singleton _ _, ?_⟩
    intro a ha b hb
    rw [List.mem_singleton] at hb
    subst hb
    rcases List.mem_filter.mp ha with ⟨-, haid⟩
    simpa using haid

/-- `put` of an item whose key and present `offlineId` both equal those of
a record already in the store succeeds as an in-place update: afterwards
exactly one record carries that `offlineId` and exactly one record sits
under that key. -/
theorem putItem_update_unique (store : List Item) (m : Item) (o : String)
    (r : Item) (hmid : m.id = some o) (hmoff : m.offlineId = some o)
    (hoid : NoDupOfflineIds store) (hr : r ∈ store) (hrid : r.id = some o)
    (hroff : r.offlineId = some o) :
    putItem store m =
      .ok (store.filter (fun x => decide (x.id ≠ m.id)) ++ [m]) ∧
    countOffline (store.filter (fun x => decide (x.id ≠ m.id)) ++ [m]) o
      = 1 ∧
    countKey (store.filter (fun x => decide (x.id ≠ m.id)) ++ [m]) o
      = 1 := by
  have hcond : (store.any fun x => decide (x.id ≠ m.id) &&
      x.offlineId.isSome && decide (x.offlineId = m.offlineId)) = false := by
    rw [List.any_eq_false]
    intro x hx hpred
    rw [Bool.and_eq_true, Bool.and_eq_true] at hpred
    obtain ⟨⟨hxid, hxsome⟩, hxoff⟩ := hpred
    rw [hmid] at hxid
    rw [hmoff] at hxoff
    have hxid' : x.id ≠ some o := by simpa using hxid
    have hxoff' : x.offlineId = some o := by simpa using hxoff
    have hxr := eq_of_offlineId_eq x r o hxoff' hroff store hoid hx hr
    apply hxid'
    rw [hxr]
    exact hrid
  refine ⟨?_, ?_, ?_⟩
  · unfold putItem
    rw [if_neg]
    rw [hcond]
    exact Bool.false_ne_true
  · unfold countOffline
    rw [List.filter_append, List.length_append]
    have h1 : (store.filter (fun x => decide (x.id ≠ m.id))).filter
        (fun x => x.offlineId == some o) = [] := by
      rw [List.filter_eq_nil_iff]
      intro x hx hxoff
      rcases List.mem_filter.mp hx with ⟨hxl, hxid⟩
      have hxoff' : x.offlineId = some o := by simpa using hxoff
      have hxr := eq_of_offlineId_eq x r o hxoff' hroff store hoid hxl hr
      rw [hmid] at hxid
      have hxid' : x.id ≠ some o := by simpa using hxid
      apply hxid'
      rw [hxr]
      exact hrid
    rw [h1]
    simp [hmoff]
  · unfold countKey
    rw [List.filter_append, List.length_append]
    have h1 : (store.filter (fun x => decide (x.id ≠ m.id))).filter
        (fun x => x.id == some o) = [] := by
      rw [List.filter_eq_nil_iff]
      intro x hx hxid2
      rcases List.mem_filter.mp hx with ⟨-, hxid⟩
      rw [hmid] at hxid
      have hne : x.id ≠ some o := by simpa using hxid
      exact hne (by simpa using hxid2)
    rw [h1]
    simp [hmid]

/-- C5: every store operation keeps exactly one record per local
identifier: each `OfflineDB` step preserves the uniqueness invariants
(unique `offlineId` index and primary-key uniqueness) of both the
collection and the wishlist store, and saving an item whose `offlineId` —
also its key — is already present in its store succeeds as an in-place
update: afterwards exactly one record there carries that `offlineId` and
exactly one record sits under that key. -/
theorem c5_unique_offline_id :
    (∀ db db', Step db db' → storesUnique db → storesUnique db') ∧
    (∀ (db : DBState) (it : Item) (t : Nat) (rnd : String) (o : String)
        (r : Item), strIsEmpty o = false → isNewItem it = true →
        NoDupOfflineIds db.collection → r ∈ db.collection →
        r.id = some o → r.offlineId = some o → it.offlineId = some o →
        ∃ db', saveCollectionItem db it t rnd = .ok db' ∧
          countOffline db'.collection o = 1 ∧
          countKey db'.collection o = 1) ∧
    (∀ (db : DBState) (it : Item) (t : Nat) (rnd : String) (o : String)
        (r : Item), strIsEmpty o = false → isNewItem it = true →
        NoDupOfflineIds db.wishlist → r ∈ db.wishlist →
        r.id = some o → r.offlineId = some o → it.offlineId = some o →
        ∃ db', saveWishlistItem db it t rnd = .ok db' ∧
          countOffline db'.wishlist o = 1 ∧
          countKey db'.wishlist o = 1) := by
  refine ⟨?_, ?_, ?_⟩
  · intro db db' hstep hinv
    obtain ⟨hc1, hc2, hw1, hw2⟩ := hinv
    cases hstep with
    | saveColl it t rnd db2 h =>
      unfold saveCollectionItem at h
      cases hput : putItem db.collection (mutateForSave it t rnd) with
      | error e =>
        rw [hput] at h
        cases h
      | ok c =>
        rw [hput] at h
        cases h
        have hc := putItem_preserves_nodup _ _ _ hput hc1 hc2
        exact ⟨hc.1, hc.2, hw1, hw2⟩
    | saveWish it t rnd db2 h =>
      unfold saveWishlistItem at h
      cases hput : putItem db.wishlist (mutateForSave it t rnd) with
      | error e =>
        rw [hput] at h
        cases h
      | ok w =>
        rw [hput] at h
        cases h
        have hw := putItem_preserves_nodup _ _ _ hput hw1 hw2
        exact ⟨hc1, hc2, hw.1, hw.2⟩
    | delColl k =>
      exact ⟨List.Pairwise.sublist (List.filter_sublist _) hc1,
        List.Pairwise.sublist (List.filter_sublist _) hc2, hw1, hw2⟩
    | delWish k =>
      exact ⟨hc1, hc2, List.Pairwise.sublist (List.filter_sublist _) hw1,
        List.Pairwise.sublist (List.filter_sublist _) hw2⟩
    | addQueue op t => exact ⟨hc1, hc2, hw1, hw2⟩
    | removeQueue qid => exact ⟨hc1, hc2, hw1, hw2⟩
    | clearQueue => exact ⟨hc1, hc2, hw1, hw2⟩
    | cacheResp k d t => exact ⟨hc1, hc2, hw1, hw2⟩
    | saveProf p => exact ⟨hc1, hc2, hw1, hw2⟩
    | clearEverything =>
      exact ⟨List.Pairwise.nil, List.Pairwise.nil, List.Pairwise.nil,
        List.Pairwise.nil⟩
  · intro db it t rnd o r hno hnew hoid hr hrid hroff hioff
    have hm : mutateForSave it t rnd =
        { it with offlineId := some o, synced := some false,
                  id := some o } := by
      unfold mutateForSave
      rw [if_pos hnew, hioff]
      simp [jsOr, hno]
    have hmid : (mutateForSave it t rnd).id = some o := by rw [hm]
    have hmoff : (mutateForSave it t rnd).offlineId = some o := by rw [hm]
    obtain ⟨hput, hco, hck⟩ := putItem_update_unique db.collection
      (mutateForSave it t rnd) o r hmid hmoff hoid hr hrid hroff
    refine ⟨{ db with collection := db.collection.filter (fun x => decide (x.id ≠ (mutateForSave it t rnd).id)) ++ [mutateForSave it t rnd] }, ?_, ?_, ?_⟩
    · unfold saveCollectionItem
      rw [hput]
    · exact hco
    · exact hck
  · intro db it t rnd o r hno hnew hoid hr hrid hroff hioff
    have hm : mutateForSave it t rnd =
        { it with offlineId := some o, synced := some false,
                  id := some o } := by
      unfold mutateForSave
      rw [if_pos hnew, hioff]
      simp [jsOr, hno]
    have hmid : (mutateForSave it t rnd).id = some o := by rw [hm]
    have hmoff : (mutateForSave it t rnd).offlineId = some o := by rw [hm]
    obtain ⟨hput, hco, hck⟩ := putItem_update_unique db.wishlist
      (mutateForSave it t rnd) o r hmid hmoff hoid hr hrid hroff
    refine ⟨{ db with wishlist := db.wishlist.filter (fun x => decide (x.id ≠ (mutateForSave it t rnd).id)) ++ [mutateForSave it t rnd] }, ?_, ?_, ?_⟩
    · unfold saveWishlistItem
      rw [hput]
    · exact hco
    · exact hck

/-- C5 witness: re-saving an edit of the stored record under its existing
offline id succeeds as an in-place update in the collection store and in
the wishlist store, and a concrete step preserves the uniqueness
invariants. -/
theorem c5_unique_offline_id_witness :
    (∃ db', saveCollectionItem dbStored itEdited 9 "z" = .ok db' ∧
      countOffline db'.collection "offline_1_r" = 1 ∧
      countKey db'.collection "offline_1_r" = 1) ∧
    (∃ db', saveWishlistItem dbStoredW itEdited 9 "z" = .ok db' ∧
      countOffline db'.wishlist "offline_1_r" = 1 ∧
      countKey db'.wishlist "offline_1_r" = 1) ∧
    storesUnique (addToSyncQueueD dbStored ⟨"Create", "L1", "A"⟩ 7) := by
  refine ⟨?_, ?_, ?_⟩
  · exact c5_unique_offline_id.2.1 dbStored itEdited 9 "z" "offline_1_r"
      rStored (by decide) (by decide)
      (by unfold NoDupOfflineIds; decide)
      (by decide) (by decide) (by decide) (by decide)
  · exact c5_unique_offline_id.2.2 dbStoredW itEdited 9 "z" "offline_1_r"
      rStored (by decide) (by decide)
      (by unfold NoDupOfflineIds; decide)
      (by decide) (by decide) (by decide) (by decide)
  · exact c5_unique_offline_id.1 dbStored _
      (Step.addQueue dbStored ⟨"Create", "L1", "A"⟩ 7)
      (by unfold storesUnique NoDupOfflineIds NoDupKeys
          exact ⟨by decide, by decide, by decide, by decide⟩)

/-- C7: once an entry's attempts have reached the cap, the fail path
freezes it as `failed` in place (surfacing it instead of retrying); every
other entry is untouched, so independent non-failed entries remain eligible
for further draining. -/
theorem c7_fail_cap (db : DBState) (e : QueueEntry)
    (hmem : e ∈ db.syncQueue) (hcap : MAX_ATTEMPTS ≤ e.attempts) :
    (failEntry e).status = "failed" ∧
    failEntry e ∈ (failQueueEntry db e.id).syncQueue ∧
    (∀ e' ∈ db.syncQueue, e'.id ≠ e.id →
        e' ∈ (failQueueEntry db e.id).syncQueue) ∧
    (∀ e' ∈ db.syncQueue, e'.id ≠ e.id → e'.status ≠ "failed" →
        e' ∈ drainEligible (failQueueEntry db e.id).syncQueue) := by
  have hfail : (failEntry e).status = "failed" := by
    unfold failEntry
    rw [if_pos (Nat.lt_succ_of_le hcap)]
  refine ⟨hfail, ?_, ?_, ?_⟩
  · show failEntry e ∈
      db.syncQueue.map (fun x => if x.id = e.id then failEntry x else x)
    have h := List.mem_map_of_mem
      (fun x => if x.id = e.id then failEntry x else x) hmem
    simpa using h
  · intro e' he' hne
    show e' ∈
      db.syncQueue.map (fun x => if x.id = e.id then failEntry x else x)
    have h : (if e'.id = e.id then failEntry e' else e') ∈
        db.syncQueue.map (fun x => if x.id = e.id then failEntry x else x) :=
      List.mem_map_of_mem (fun x => if x.id = e.id then failEntry x else x) he'
    rwa [if_neg hne] at h
  · intro e' he' hne hnf
    have h : (if e'.id = e.id then failEntry e' else e') ∈
        db.syncQueue.map (fun x => if x.id = e.id then failEntry x else x) :=
      List.mem_map_of_mem (fun x => if x.id = e.id then failEntry x else x) he'
    rw [if_neg hne] at h
    unfold drainEligible
    exact List.mem_filter.mpr ⟨h, by simpa using hnf⟩

/-- C7 witness: failing the capped entry freezes it as `failed` while the
healthy entry behind it stays eligible to drain. -/
theorem c7_fail_cap_witness :
    (failEntry qPoisoned).status = "failed" ∧
      qHealthy ∈
        drainEligible (failQueueEntry dbPoisoned qPoisoned.id).syncQueue := by
  have h := c7_fail_cap dbPoisoned qPoisoned (by decide) (by decide)
  exact ⟨h.1, h.2.2.2 qHealthy (by decide) (by decide) (by decide)⟩

end OfflineDB
